import Mathlib

/-!
# go-deadmanssnitch: the client, its transport layer and its resource operations

A shallow embedding of `client.go`, `request.go` and `snitch.go`.

Modelling conventions.

* A Go `string` and a Go `[]byte` are both a Lean `String`: the code only
  concatenates and formats them, it never looks inside. A nil `[]byte` is `none`.
* A Go `error` is a `GoError`; a nil error is `none`. A Go result pair
  `(value, err)` is a Lean pair of options.
* `fmt.Sprintf` / `fmt.Errorf` with `%s`, `%d` and `%v` verbs are written as the
  concatenation they produce (`%d` is `toString` on `Int`, `%v` of an error is its
  `Error()` text).
* The standard library (`net/http`, `encoding/json`) is not code of this
  repository. What it computes is taken as a parameter (`Lib`); what the code
  hands to it and what the code does with its answers is embedded from the source.
* The receiver `c *Client` lives in the `World`, together with the trace of what
  the code did at the library boundary, oldest event first.
-/

namespace Deadmanssnitch

/-! ## Errors -/

/-- A Go `error` value: either one handed back by a library call, or one built by
`fmt.Errorf` in this package. -/
inductive GoError where
  | lib (text : String)
  | errorf (text : String)

/-- The `Error()` method: the text of the error. -/
def GoError.Error : GoError → String
  | .lib text => text
  | .errorf text => text

/-! ## `net/http` data -/

/-- The `http.Request` the code builds: method and URL as handed to
`http.NewRequest`, the header fields set on it, the credentials given to
`SetBasicAuth`, and the body. -/
structure Request where
  Method : String
  URL : String
  Header : List (String × String)
  BasicAuth : Option (String × String)
  Body : Option String

/-- The `http.Response` fields the code reads. `Body` is what `ioutil.ReadAll`
gives on the body stream; `Request` is the request that obtained the response. -/
structure Response where
  StatusCode : Int
  Body : Except GoError String
  Request : Request

/-- The constant `http.StatusOK`. -/
def StatusOK : Int := 200

/-- The constant `http.StatusAccepted`. -/
def StatusAccepted : Int := 202

/-- The constant `http.StatusNoContent`. -/
def StatusNoContent : Int := 204

/-- The constant `http.StatusUnprocessableEntity`. -/
def StatusUnprocessableEntity : Int := 422

/-- The method `Header.Set`: the field gets exactly this value. -/
def Request.SetHeader (r : Request) (key value : String) : Request :=
  { r with Header := (r.Header.filter fun kv => kv.1 ≠ key) ++ [(key, value)] }

/-- The method `Request.SetBasicAuth`: the request carries these Basic credentials. -/
def Request.SetBasicAuth (r : Request) (username password : String) : Request :=
  { r with BasicAuth := some (username, password) }

/-! ## `request.go`: payload types -/

/-- Validation contains the details of a API field validation error. -/
structure Validation where
  Attribute : String
  Message : String

/-- ErrorResponse represents the structure of a API error. -/
structure ErrorResponse where
  ErrorType : String
  ErrorString : String
  Validations : List Validation

/-! ## `snitch.go`: the Snitch record -/

/-- Snitch represents the details of a snitch; fields in declaration order. -/
structure Snitch where
  Token : String
  Href : String
  Name : String
  Tags : List String
  Status : String
  Notes : String
  CheckedInAt : String
  CheckInURL : String
  Interval : String
  AlertType : String
  CreatedAt : String

/-! ## `client.go` -/

/-- The `apiEndpoint` constant. -/
def apiEndpoint : String := "https://api.deadmanssnitch.com"

/-- The `apiVersion` constant. -/
def apiVersion : String := "v1"

/-- Client is the Dead Man's Snitch API client. The `httpClient` field is the
library's transport, `Lib.Do` below. -/
structure Client where
  apiBaseURL : String
  apiKey : String

/-- NewClient creates a new API client. -/
def NewClient (apiKey : String) : Client :=
  { apiBaseURL := apiEndpoint ++ "/" ++ apiVersion
    apiKey := apiKey }

/-! ## The library boundary -/

/-- What the code did at the library boundary.
* `call`: `Client.do` was entered with this method, relative path and body;
* `send`: `c.httpClient.Do(request)` was called, with what it returned;
* `get`: `http.Get(url)` was called, with what it returned. -/
inductive Event where
  | call (method path : String) (body : Option String)
  | send (request : Request) (answer : Except GoError Response)
  | get (url : String) (answer : Except GoError Response)

/-- The standard-library functions the code calls, as parameters.
* `NewRequestErr method url`: the error of `http.NewRequest`, if it refuses them;
* `Do trace request`: `httpClient.Do`, which may depend on all that went before;
* `Get trace url`: `http.Get`;
* `UnmarshalErrorResponse`, `UnmarshalSnitch`, `UnmarshalSnitchList`:
  `json.Unmarshal` into a fresh value of that type;
* `quote`: the JSON encoding of a Go string, quotes included. -/
structure Lib where
  NewRequestErr : String → String → Option GoError
  Do : List Event → Request → Except GoError Response
  Get : List Event → String → Except GoError Response
  UnmarshalErrorResponse : String → Except GoError ErrorResponse
  UnmarshalSnitch : String → Except GoError Snitch
  UnmarshalSnitchList : String → Except GoError (List Snitch)
  quote : String → String

/-- The `http.NewRequest` call: an error when the library refuses the method or
the URL, else a request with that method, URL and body, and nothing else set. -/
def NewRequest (E : Lib) (method url : String) (body : Option String) :
    Except GoError Request :=
  match E.NewRequestErr method url with
  | some err => .error err
  | none => .ok { Method := method, URL := url, Header := [], BasicAuth := none, Body := body }

/-- The client struct behind the receiver pointer, and the trace so far. -/
structure World where
  client : Client
  trace : List Event

/-- Append one event to the trace. -/
def World.record (w : World) (e : Event) : World :=
  { w with trace := w.trace ++ [e] }

/-! ## `request.go`: checkResponse and do -/

/-- The loop of `checkResponse` over the validations: each entry is appended to
the string built so far as `attribute: message, `. -/
def validationString : String → List Validation → String
  | errorString, [] => errorString
  | errorString, v :: rest =>
    validationString (errorString ++ (v.Attribute ++ ": " ++ v.Message ++ ", ")) rest

/-- The `checkResponse` method. The argument is the `(response, err)` pair of
`httpClient.Do`: a response when `err` is nil. -/
def checkResponse (E : Lib) (answer : Except GoError Response) :
    Option String × Option GoError :=
  match answer with
  | .error err => (none, some (.errorf ("Error calling the API endpoint: " ++ err.Error)))
  | .ok response =>
    match response.Body with
    | .error err => (none, some (.errorf ("Error reading the API response: " ++ err.Error)))
    | .ok bodyBytes =>
      if response.StatusCode ≠ StatusOK ∧ response.StatusCode ≠ StatusNoContent then
        match E.UnmarshalErrorResponse bodyBytes with
        | .error err => (none, some err)
        | .ok errorResponse =>
          let errorString :=
            if response.StatusCode = StatusUnprocessableEntity then
              validationString "" errorResponse.Validations
            else
              errorResponse.ErrorType ++ ": " ++ errorResponse.ErrorString
          (none, some (.errorf ("Error requesting " ++ response.Request.Method ++ " "
            ++ response.Request.URL ++ ", HTTP " ++ toString response.StatusCode ++ ". "
            ++ errorString)))
      else
        (some bodyBytes, none)

/-- The `do` method of the client. -/
def Client.do_ (E : Lib) (method path : String) (body : Option String) (w : World) :
    (Option String × Option GoError) × World :=
  let w := w.record (.call method path body)
  match NewRequest E method (w.client.apiBaseURL ++ "/" ++ path) body with
  | .error err => ((none, some err), w)
  | .ok request =>
    let request := request.SetHeader "Content-Type" "application/json"
    let request := request.SetBasicAuth w.client.apiKey ""
    let answer := E.Do w.trace request
    (checkResponse E answer, w.record (.send request answer))

/-! ## `encoding/json` on the types of this package -/

/-- The `strings.Join` function. -/
def Join : List String → String → String
  | [], _ => ""
  | [a], _ => a
  | a :: b :: rest, sep => a ++ sep ++ Join (b :: rest) sep

/-- The Go value of a Snitch field: a `string` or a `[]string`. -/
inductive FieldValue where
  | str (s : String)
  | strs (l : List String)

/-- The emptiness test of `omitempty` for these kinds: length zero. -/
def FieldValue.isEmpty : FieldValue → Bool
  | .str s => s.length == 0
  | .strs l => l.length == 0

/-- One struct field as `encoding/json` sees it: the key and the `omitempty`
option of its tag, and its value. -/
structure Field where
  key : String
  omitempty : Bool
  value : FieldValue

/-- The fields of a Snitch with their `json:"..."` tags, in declaration order. -/
def Snitch.fields (s : Snitch) : List Field :=
  [ ⟨"token", true, .str s.Token⟩,
    ⟨"href", true, .str s.Href⟩,
    ⟨"name", true, .str s.Name⟩,
    ⟨"tags", true, .strs s.Tags⟩,
    ⟨"status", true, .str s.Status⟩,
    ⟨"notes", true, .str s.Notes⟩,
    ⟨"checked_in_at", true, .str s.CheckedInAt⟩,
    ⟨"check_in_url", true, .str s.CheckInURL⟩,
    ⟨"interval", true, .str s.Interval⟩,
    ⟨"alert_type", true, .str s.AlertType⟩,
    ⟨"created_at", true, .str s.CreatedAt⟩ ]

/-- The fields `encoding/json` writes: all but the empty ones tagged `omitempty`. -/
def keptFields (fs : List Field) : List Field :=
  fs.filter fun f => !(f.omitempty && f.value.isEmpty)

/-- JSON text of a non-nil `[]string`. -/
def encodeStrings (E : Lib) (l : List String) : String :=
  "[" ++ Join (l.map E.quote) "," ++ "]"

/-- JSON text of a field value. -/
def FieldValue.encode (E : Lib) : FieldValue → String
  | .str s => E.quote s
  | .strs l => encodeStrings E l

/-- JSON text of one object member, `"key":value`. -/
def Field.encode (E : Lib) (f : Field) : String :=
  "\"" ++ f.key ++ "\":" ++ f.value.encode E

/-- JSON text of a struct: the members that are written, comma separated, in braces. -/
def encodeObject (E : Lib) (fs : List Field) : String :=
  "\x7b" ++ Join ((keptFields fs).map (Field.encode E)) "," ++ "\x7d"

/-- The call `json.Marshal(snitch)` on a non-nil `*Snitch`. -/
def MarshalSnitch (E : Lib) (snitch : Snitch) : Except GoError String :=
  .ok (encodeObject E snitch.fields)

/-- The call `json.Marshal(newTags)` on a `[]string`; `none` is the nil slice. -/
def MarshalTags (E : Lib) (newTags : Option (List String)) : Except GoError String :=
  match newTags with
  | none => .ok "null"
  | some l => .ok (encodeStrings E l)

/-! ## `snitch.go`: the resource operations -/

/-- ListSnitches returns a list of snitches with the provided `filters`. -/
def Client.ListSnitches (E : Lib) (filters : List String) (w : World) :
    (Option (List Snitch) × Option GoError) × World :=
  let tagList := Join filters ","
  match Client.do_ E "GET" ("snitches?tags=" ++ tagList) none w with
  | ((_, some err), w) => ((none, some err), w)
  | ((body, none), w) =>
    match E.UnmarshalSnitchList (body.getD "") with
    | .error err => ((none, some err), w)
    | .ok snitchList => ((some snitchList, none), w)

/-- CheckIn calls the check-in url for the snitch. -/
def Client.CheckIn (E : Lib) (token : String) (w : World) : Option GoError × World :=
  let CheckInURL := "https://nosnch.in/" ++ token
  let answer := E.Get w.trace CheckInURL
  let w := w.record (.get CheckInURL answer)
  match answer with
  | .error err => (some err, w)
  | .ok resp =>
    match resp.Body with
    | .error err =>
      (some (.errorf ("Error reading the API check-in response: " ++ err.Error)), w)
    | .ok body =>
      if resp.StatusCode = StatusAccepted then
        (none, w)
      else
        (some (.errorf ("Error checking in GET " ++ CheckInURL ++ ", HTTP "
          ++ toString resp.StatusCode ++ ". " ++ body)), w)

/-- GetSnitch returns a single snitch. -/
def Client.GetSnitch (E : Lib) (token : String) (w : World) :
    (Option Snitch × Option GoError) × World :=
  match Client.do_ E "GET" ("snitches/" ++ token) none w with
  | ((_, some err), w) => ((none, some err), w)
  | ((body, none), w) =>
    match E.UnmarshalSnitch (body.getD "") with
    | .error err => ((none, some err), w)
    | .ok snitch => ((some snitch, none), w)

/-- CreateSnitch creates a new snitch. -/
def Client.CreateSnitch (E : Lib) (snitch : Snitch) (w : World) :
    (Option Snitch × Option GoError) × World :=
  match MarshalSnitch E snitch with
  | .error err => ((none, some err), w)
  | .ok snitchData =>
    match Client.do_ E "POST" "snitches" (some snitchData) w with
    | ((_, some err), w) => ((none, some err), w)
    | ((body, none), w) =>
      match E.UnmarshalSnitch (body.getD "") with
      | .error err => ((none, some err), w)
      | .ok newSnitch => ((some newSnitch, none), w)

/-- UpdateSnitch updates the snitch identified by `token`. -/
def Client.UpdateSnitch (E : Lib) (token : String) (updatedSnitch : Snitch) (w : World) :
    (Option Snitch × Option GoError) × World :=
  match MarshalSnitch E updatedSnitch with
  | .error err => ((none, some err), w)
  | .ok snitchData =>
    match Client.do_ E "PATCH" ("snitches/" ++ token) (some snitchData) w with
    | ((_, some err), w) => ((none, some err), w)
    | ((body, none), w) =>
      match E.UnmarshalSnitch (body.getD "") with
      | .error err => ((none, some err), w)
      | .ok newSnitch => ((some newSnitch, none), w)

/-- AddTags adds the given tags to the snitch, leaving existing tags unchanged. -/
def Client.AddTags (E : Lib) (token : String) (newTags : Option (List String)) (w : World) :
    Option GoError × World :=
  match MarshalTags E newTags with
  | .error err => (some err, w)
  | .ok newTagData =>
    match Client.do_ E "POST" ("snitches/" ++ token ++ "/tags") (some newTagData) w with
    | ((_, some err), w) => (some err, w)
    | ((_, none), w) => (none, w)

/-- RemoveTags removes the given tags from the snitch: the loop over `rmTags`. -/
def Client.RemoveTags (E : Lib) (token : String) : List String → World → Option GoError × World
  | [], w => (none, w)
  | tag :: rest, w =>
    match Client.do_ E "DELETE" ("snitches/" ++ token ++ "/tags/" ++ tag) none w with
    | ((_, some err), w) => (some err, w)
    | ((_, none), w) => Client.RemoveTags E token rest w

/-- PauseSnitch pauses a snitch. -/
def Client.PauseSnitch (E : Lib) (token : String) (w : World) : Option GoError × World :=
  match Client.do_ E "POST" ("snitches/" ++ token ++ "/pause") none w with
  | ((_, some err), w) => (some err, w)
  | ((_, none), w) => (none, w)

/-- DeleteSnitch deletes a snitch. -/
def Client.DeleteSnitch (E : Lib) (token : String) (w : World) : Option GoError × World :=
  match Client.do_ E "DELETE" ("snitches/" ++ token) none w with
  | ((_, some err), w) => (some err, w)
  | ((_, none), w) => (none, w)

/-! ## Reading the trace -/

/-- The calls of `Client.do` in a trace, in order: method, relative path, body. -/
def calls : List Event → List (String × String × Option String)
  | [] => []
  | .call method path body :: rest => (method, path, body) :: calls rest
  | .send _ _ :: rest => calls rest
  | .get _ _ :: rest => calls rest

/-- The requests handed to `httpClient.Do` in a trace, in order. -/
def sentRequests : List Event → List Request
  | [] => []
  | .call _ _ _ :: rest => sentRequests rest
  | .send request _ :: rest => request :: sentRequests rest
  | .get _ _ :: rest => sentRequests rest

/-- The request `Client.do` builds for a method, a relative path and a body. -/
def apiRequest (c : Client) (method path : String) (body : Option String) : Request :=
  { Method := method
    URL := c.apiBaseURL ++ "/" ++ path
    Header := [("Content-Type", "application/json")]
    BasicAuth := some (c.apiKey, "")
    Body := body }

/-- The text `part` occurs in `text`. -/
def Includes (text part : String) : Prop :=
  ∃ before after : String, text = before ++ part ++ after

/-! ## The members of a Snitch body, as the specification words them -/

/-- The member for a string field: present exactly when the string is non-empty. -/
def stringMember (key value : String) : List Field :=
  if value ≠ "" then [⟨key, true, .str value⟩] else []

/-- The member for the tag list: present exactly when there is at least one tag. -/
def tagsMember (key : String) (tags : List String) : List Field :=
  if 1 ≤ tags.length then [⟨key, true, .strs tags⟩] else []

/-- The members a Snitch body carries: one for each non-empty field, in the order
of the record. -/
def Snitch.populated (s : Snitch) : List Field :=
  stringMember "token" s.Token ++ stringMember "href" s.Href ++ stringMember "name" s.Name
    ++ tagsMember "tags" s.Tags ++ stringMember "status" s.Status
    ++ stringMember "notes" s.Notes ++ stringMember "checked_in_at" s.CheckedInAt
    ++ stringMember "check_in_url" s.CheckInURL ++ stringMember "interval" s.Interval
    ++ stringMember "alert_type" s.AlertType ++ stringMember "created_at" s.CreatedAt

/-! ## Tag removal, one request at a time -/

/-- The request `RemoveTags` makes of the transport layer for one tag. -/
def removeOne (E : Lib) (token tag : String) (w : World) :
    (Option String × Option GoError) × World :=
  Client.do_ E "DELETE" ("snitches/" ++ token ++ "/tags/" ++ tag) none w

/-- The world after the requests for these tags have been made, in order. -/
def worldAfter (E : Lib) (token : String) : List String → World → World
  | [], w => w
  | tag :: rest, w => worldAfter E token rest (removeOne E token tag w).2

/-- None of the requests for these tags, made in order, fails. -/
def NoneFails (E : Lib) (token : String) : List String → World → Prop
  | [], _ => True
  | tag :: rest, w =>
    (removeOne E token tag w).1.2 = none ∧ NoneFails E token rest (removeOne E token tag w).2

/-! ## Texts and bodies the theorems name -/

/-- The text `attribute: message, ` of one validation entry. -/
def Validation.text (v : Validation) : String :=
  v.Attribute ++ ": " ++ v.Message ++ ", "

/-- The error text `checkResponse` builds from a decoded error payload. -/
def apiErrorText (status : Int) (request : Request) (p : ErrorResponse) : String :=
  "Error requesting " ++ request.Method ++ " " ++ request.URL ++ ", HTTP "
    ++ toString status ++ ". "
    ++ (if status = StatusUnprocessableEntity then validationString "" p.Validations
        else p.ErrorType ++ ": " ++ p.ErrorString)

/-- The body `AddTags` sends: the JSON text of the tag list. -/
def tagsBody (E : Lib) (newTags : Option (List String)) : String :=
  match newTags with
  | none => "null"
  | some l => encodeStrings E l

/-! ## What an operation reports about a failed exchange -/

/-- Run from `w`, the operation ended in `out`, and the last thing it did at the
library boundary was to send a request that was answered by `resp`. -/
def EndsWithExchange (w out : World) (resp : Response) : Prop :=
  ∃ (evs : List Event) (request : Request),
    out.trace = w.trace ++ evs ∧ evs.getLast? = some (.send request (.ok resp))

/-- The error is non-nil and its text includes the method and the URL of the
response's request and the status code. -/
def NamesRequest (err : Option GoError) (resp : Response) : Prop :=
  ∃ e, err = some e ∧ Includes e.Error resp.Request.Method
    ∧ Includes e.Error resp.Request.URL ∧ Includes e.Error (toString resp.StatusCode)

/-! ## A concrete library, to run the embedding on inputs -/

/-- The body of an error answer for an unknown token. -/
def notFoundBody : String :=
  "\x7b\"type\":\"resource_not_found\",\"error\":\"no such snitch\"\x7d"

/-- The body of an error answer for a refused field. -/
def invalidBody : String :=
  "\x7b\"type\":\"validation\",\"error\":\"invalid\",\"validations\":[\x7b\"attribute\":\"interval\",\"message\":\"is not included in the list\"\x7d]\x7d"

/-- The call `json.Unmarshal` into an `ErrorResponse`, on the bodies used here: the two
payloads above decode; anything else, the empty body included, is an error. -/
def sampleDecode (body : String) : Except GoError ErrorResponse :=
  if body = notFoundBody then
    .ok ⟨"resource_not_found", "no such snitch", []⟩
  else if body = invalidBody then
    .ok ⟨"validation", "invalid", [⟨"interval", "is not included in the list"⟩]⟩
  else
    .error (.lib "unexpected end of JSON input")

/-- A library whose server answers each request with the status and body that
`server` gives for it; `http.NewRequest` accepts everything, every body can be
read, and a Snitch body decodes to the Snitch with that token. -/
def sampleLib (server : Request → Int × String) : Lib :=
  { NewRequestErr := fun _ _ => none
    Do := fun _ request => .ok ⟨(server request).1, .ok (server request).2, request⟩
    Get := fun _ url =>
      .ok ⟨(server ⟨"GET", url, [], none, none⟩).1, .ok (server ⟨"GET", url, [], none, none⟩).2,
        ⟨"GET", url, [], none, none⟩⟩
    UnmarshalErrorResponse := sampleDecode
    UnmarshalSnitch := fun body => .ok ⟨body, "", "", [], "", "", "", "", "", "", ""⟩
    UnmarshalSnitchList := fun _ => .ok []
    quote := fun s => "\"" ++ s ++ "\"" }

/-- A world to start from: a new client and nothing done yet. -/
def sampleWorld : World :=
  { client := NewClient "secret", trace := [] }

/-- A server that answers 404 with an empty body to everything. -/
def emptyNotFound (_ : Request) : Int × String := (404, "")

/-- A server that answers 404 with the `notFoundBody` payload to everything. -/
def jsonNotFound (_ : Request) : Int × String := (404, notFoundBody)

/-- A server that answers 200 with the body `ok` to everything. -/
def alwaysOK (_ : Request) : Int × String := (200, "ok")

/-- A server that knows every tag but `b`: 204 with an empty body, and 404 with
the `notFoundBody` payload for a URL ending in `/tags/b`. -/
def missingTagB (request : Request) : Int × String :=
  if request.URL = "https://api.deadmanssnitch.com/v1/snitches/abc/tags/b" then
    (404, notFoundBody)
  else
    (204, "")

/-- A Snitch with five of the eleven fields populated, as a caller of
CreateSnitch would fill it. -/
def sampleSnitch : Snitch :=
  { Token := "", Href := "", Name := "testSnitch", Tags := ["test", "nightly"], Status := "",
    Notes := "a test", CheckedInAt := "", CheckInURL := "", Interval := "hourly",
    AlertType := "basic", CreatedAt := "" }

/-! ## Helper lemmas: strings -/

theorem foldl_append_start (acc : String) (l : List String) :
    List.foldl (fun r s => r ++ s) acc l = acc ++ List.foldl (fun r s => r ++ s) "" l := by
  induction l generalizing acc with
  | nil => simp
  | cons a rest ih =>
    simp only [List.foldl_cons]
    rw [ih (acc ++ a), ih ("" ++ a)]
    simp [String.append_assoc]

theorem validationString_eq (acc : String) (vs : List Validation) :
    validationString acc vs = acc ++ String.join (vs.map Validation.text) := by
  induction vs generalizing acc with
  | nil => simp [validationString, String.join]
  | cons v rest ih =>
    simp only [validationString, List.map_cons, String.join, List.foldl_cons]
    rw [ih, foldl_append_start ("" ++ v.text)]
    simp [String.join, Validation.text, String.append_assoc]

theorem toString_422 : toString (422 : Int) = "422" := by decide

theorem checkResponse_of_success (E : Lib) (status : Int) (body : String) (request : Request)
    (h : status = 200 ∨ status = 204) :
    checkResponse E (.ok ⟨status, .ok body, request⟩) = (some body, none) := by
  have hc : ¬ (status ≠ StatusOK ∧ status ≠ StatusNoContent) := by
    simp only [StatusOK, StatusNoContent]; tauto
  show (if status ≠ StatusOK ∧ status ≠ StatusNoContent then _ else _) = _
  rw [if_neg hc]

theorem checkResponse_of_failure (E : Lib) (status : Int) (body : String) (request : Request)
    (h200 : status ≠ 200) (h204 : status ≠ 204) :
    checkResponse E (.ok ⟨status, .ok body, request⟩)
      = match E.UnmarshalErrorResponse body with
        | .error err => (none, some err)
        | .ok p => (none, some (.errorf (apiErrorText status request p))) := by
  have hc : status ≠ StatusOK ∧ status ≠ StatusNoContent := ⟨h200, h204⟩
  show (if status ≠ StatusOK ∧ status ≠ StatusNoContent then _ else _) = _
  rw [if_pos hc]
  cases E.UnmarshalErrorResponse body <;> rfl

/-! ## Claims on `checkResponse` -/

/-- C1. For a response received without a transport error and with a readable
body, `checkResponse` returns the body unchanged and no error if and only if the
status code is 200 or 204, whatever the body (the empty one too); for every other
status code (201 and 202 among them) it returns no bytes and a non-nil error. -/
theorem checkResponse_success_iff (E : Lib) (status : Int) (body : String) (request : Request) :
    (checkResponse E (.ok ⟨status, .ok body, request⟩) = (some body, none)
        ↔ (status = 200 ∨ status = 204))
      ∧ (¬ (status = 200 ∨ status = 204) →
          ∃ err, checkResponse E (.ok ⟨status, .ok body, request⟩) = (none, some err)) := by
  by_cases h : status = 200 ∨ status = 204
  · simp [checkResponse_of_success E status body request h, h]
  · have h200 : status ≠ 200 := fun e => h (Or.inl e)
    have h204 : status ≠ 204 := fun e => h (Or.inr e)
    rw [checkResponse_of_failure E status body request h200 h204]
    refine ⟨?_, fun _ => ?_⟩
    · cases E.UnmarshalErrorResponse body <;> simp [h]
    · cases E.UnmarshalErrorResponse body <;> simp

/-- C2. For a response with status 422 whose body decodes as an error payload
with validations `vs`, the error of `checkResponse` has exactly the text
`Error requesting <method> <url>, HTTP 422. ` followed by the concatenation, in
array order, of `<attribute>: <message>, ` for each validation; the payload's type
and error fields play no part: any payload with the same validations gives the
same result. -/
theorem checkResponse_unprocessable (E : Lib) (body : String) (request : Request)
    (T Er : String) (vs : List Validation)
    (hdec : E.UnmarshalErrorResponse body = .ok ⟨T, Er, vs⟩) :
    checkResponse E (.ok ⟨422, .ok body, request⟩)
        = (none, some (.errorf ("Error requesting " ++ request.Method ++ " " ++ request.URL
            ++ ", HTTP 422. "
            ++ String.join (vs.map fun v => v.Attribute ++ ": " ++ v.Message ++ ", "))))
      ∧ ∀ (E2 : Lib) (body2 T2 Er2 : String),
          E2.UnmarshalErrorResponse body2 = .ok ⟨T2, Er2, vs⟩ →
          checkResponse E2 (.ok ⟨422, .ok body2, request⟩)
            = checkResponse E (.ok ⟨422, .ok body, request⟩) := by
  have key : ∀ (E1 : Lib) (b1 T1 Er1 : String),
      E1.UnmarshalErrorResponse b1 = .ok ⟨T1, Er1, vs⟩ →
      checkResponse E1 (.ok ⟨422, .ok b1, request⟩)
        = (none, some (.errorf ("Error requesting " ++ request.Method ++ " " ++ request.URL
            ++ ", HTTP 422. "
            ++ String.join (vs.map fun v => v.Attribute ++ ": " ++ v.Message ++ ", ")))) := by
    intro E1 b1 T1 Er1 h1
    have hmap : (fun v : Validation => v.Attribute ++ ": " ++ v.Message ++ ", ")
        = Validation.text := rfl
    have hlit : ", HTTP 422. " = ", HTTP " ++ "422" ++ ". " := by decide
    rw [checkResponse_of_failure E1 422 b1 request (by decide) (by decide), h1, hmap, hlit]
    simp only [apiErrorText, StatusUnprocessableEntity, if_true, validationString_eq,
      toString_422]
    simp only [String.append_assoc, String.empty_append]
  exact ⟨key E body T Er hdec,
    fun E2 b2 T2 Er2 h2 => by rw [key E2 b2 T2 Er2 h2, key E body T Er hdec]⟩

/-- C3. For a response whose status is not 200, 204 or 422 and whose body decodes
as an error payload with type `T` and error `Er`, the error of `checkResponse` has
exactly the text `Error requesting <method> <url>, HTTP <status>. T: Er`, with the
method and URL of the response's request; the validations are ignored. -/
theorem checkResponse_generic (E : Lib) (status : Int) (body : String) (request : Request)
    (T Er : String) (vs : List Validation)
    (h200 : status ≠ 200) (h204 : status ≠ 204) (h422 : status ≠ 422)
    (hdec : E.UnmarshalErrorResponse body = .ok ⟨T, Er, vs⟩) :
    checkResponse E (.ok ⟨status, .ok body, request⟩)
      = (none, some (.errorf ("Error requesting " ++ request.Method ++ " " ++ request.URL
          ++ ", HTTP " ++ toString status ++ ". " ++ T ++ ": " ++ Er))) := by
  have hu : ¬ status = StatusUnprocessableEntity := h422
  rw [checkResponse_of_failure E status body request h200 h204, hdec]
  simp only [apiErrorText, hu, if_false, String.append_assoc]

/-- C5. For a response with a status other than 200 and 204 whose body does not
decode as an error payload, `checkResponse` returns the decoding error itself, with
no body bytes: the error value is the one `json.Unmarshal` gave, not one built
from the request and the status. -/
theorem checkResponse_decode_failure (E : Lib) (status : Int) (body : String)
    (request : Request) (err : GoError)
    (h200 : status ≠ 200) (h204 : status ≠ 204)
    (hdec : E.UnmarshalErrorResponse body = .error err) :
    checkResponse E (.ok ⟨status, .ok body, request⟩) = (none, some err) := by
  rw [checkResponse_of_failure E status body request h200 h204, hdec]

/-! ## Helper lemmas: `Client.do` -/

theorem do_refused (E : Lib) (method path : String) (body : Option String) (w : World)
    (err : GoError)
    (h : E.NewRequestErr method (w.client.apiBaseURL ++ "/" ++ path) = some err) :
    Client.do_ E method path body w = ((none, some err), w.record (.call method path body)) := by
  simp only [Client.do_, NewRequest, World.record, h]

theorem do_sent (E : Lib) (method path : String) (body : Option String) (w : World)
    (h : E.NewRequestErr method (w.client.apiBaseURL ++ "/" ++ path) = none) :
    Client.do_ E method path body w
      = (checkResponse E (E.Do (w.trace ++ [.call method path body])
            (apiRequest w.client method path body)),
          { client := w.client
            trace := w.trace ++ [.call method path body,
              .send (apiRequest w.client method path body)
                (E.Do (w.trace ++ [.call method path body])
                  (apiRequest w.client method path body))] }) := by
  simp only [Client.do_, NewRequest, World.record, h]
  simp [apiRequest, Request.SetHeader, Request.SetBasicAuth]

theorem do_client (E : Lib) (method path : String) (body : Option String) (w : World) :
    (Client.do_ E method path body w).2.client = w.client := by
  cases h : E.NewRequestErr method (w.client.apiBaseURL ++ "/" ++ path) with
  | none => rw [do_sent E method path body w h]
  | some err => rw [do_refused E method path body w err h]; rfl

theorem calls_append (l1 l2 : List Event) : calls (l1 ++ l2) = calls l1 ++ calls l2 := by
  induction l1 with
  | nil => rfl
  | cons e rest ih => cases e <;> simp [calls, ih]

theorem sentRequests_append (l1 l2 : List Event) :
    sentRequests (l1 ++ l2) = sentRequests l1 ++ sentRequests l2 := by
  induction l1 with
  | nil => rfl
  | cons e rest ih => cases e <;> simp [sentRequests, ih]

theorem do_calls (E : Lib) (method path : String) (body : Option String) (w : World) :
    calls (Client.do_ E method path body w).2.trace = calls w.trace ++ [(method, path, body)] := by
  cases h : E.NewRequestErr method (w.client.apiBaseURL ++ "/" ++ path) with
  | none => rw [do_sent E method path body w h]; simp [calls_append, calls]
  | some err => rw [do_refused E method path body w err h]; simp [World.record, calls_append, calls]

/-! ## Helper lemmas: every operation ends in the world its `do` call left, and
hands on the error of that call -/

theorem ListSnitches_world (E : Lib) (filters : List String) (w : World) :
    (Client.ListSnitches E filters w).2
      = (Client.do_ E "GET" ("snitches?tags=" ++ Join filters ",") none w).2 := by
  simp only [Client.ListSnitches]
  generalize Client.do_ E "GET" ("snitches?tags=" ++ Join filters ",") none w = r
  rcases r with ⟨⟨body, _ | err⟩, w1⟩
  · simp only []
    cases E.UnmarshalSnitchList (body.getD "") <;> rfl
  · rfl

theorem GetSnitch_world (E : Lib) (token : String) (w : World) :
    (Client.GetSnitch E token w).2 = (Client.do_ E "GET" ("snitches/" ++ token) none w).2 := by
  unfold Client.GetSnitch
  generalize Client.do_ E "GET" ("snitches/" ++ token) none w = r
  rcases r with ⟨⟨body, _ | err⟩, w1⟩
  · simp only []
    cases E.UnmarshalSnitch (body.getD "") <;> rfl
  · rfl

theorem CreateSnitch_world (E : Lib) (snitch : Snitch) (w : World) :
    (Client.CreateSnitch E snitch w).2
      = (Client.do_ E "POST" "snitches" (some (encodeObject E snitch.fields)) w).2 := by
  unfold Client.CreateSnitch MarshalSnitch
  simp only []
  generalize Client.do_ E "POST" "snitches" (some (encodeObject E snitch.fields)) w = r
  rcases r with ⟨⟨body, _ | err⟩, w1⟩
  · simp only []
    cases E.UnmarshalSnitch (body.getD "") <;> rfl
  · rfl

theorem UpdateSnitch_world (E : Lib) (token : String) (snitch : Snitch) (w : World) :
    (Client.UpdateSnitch E token snitch w).2
      = (Client.do_ E "PATCH" ("snitches/" ++ token)
          (some (encodeObject E snitch.fields)) w).2 := by
  unfold Client.UpdateSnitch MarshalSnitch
  simp only []
  generalize Client.do_ E "PATCH" ("snitches/" ++ token)
    (some (encodeObject E snitch.fields)) w = r
  rcases r with ⟨⟨body, _ | err⟩, w1⟩
  · simp only []
    cases E.UnmarshalSnitch (body.getD "") <;> rfl
  · rfl

theorem MarshalTags_eq (E : Lib) (newTags : Option (List String)) :
    MarshalTags E newTags = .ok (tagsBody E newTags) := by
  cases newTags <;> rfl

theorem AddTags_world (E : Lib) (token : String) (newTags : Option (List String)) (w : World) :
    (Client.AddTags E token newTags w).2
      = (Client.do_ E "POST" ("snitches/" ++ token ++ "/tags")
          (some (tagsBody E newTags)) w).2 := by
  unfold Client.AddTags
  rw [MarshalTags_eq]
  simp only []
  generalize Client.do_ E "POST" ("snitches/" ++ token ++ "/tags")
    (some (tagsBody E newTags)) w = r
  rcases r with ⟨⟨body, _ | err⟩, w1⟩ <;> rfl

theorem PauseSnitch_world (E : Lib) (token : String) (w : World) :
    (Client.PauseSnitch E token w).2
      = (Client.do_ E "POST" ("snitches/" ++ token ++ "/pause") none w).2 := by
  unfold Client.PauseSnitch
  generalize Client.do_ E "POST" ("snitches/" ++ token ++ "/pause") none w = r
  rcases r with ⟨⟨body, _ | err⟩, w1⟩ <;> rfl

theorem DeleteSnitch_world (E : Lib) (token : String) (w : World) :
    (Client.DeleteSnitch E token w).2
      = (Client.do_ E "DELETE" ("snitches/" ++ token) none w).2 := by
  unfold Client.DeleteSnitch
  generalize Client.do_ E "DELETE" ("snitches/" ++ token) none w = r
  rcases r with ⟨⟨body, _ | err⟩, w1⟩ <;> rfl

theorem RemoveTags_client (E : Lib) (token : String) (rmTags : List String) (w : World) :
    (Client.RemoveTags E token rmTags w).2.client = w.client := by
  induction rmTags generalizing w with
  | nil => rfl
  | cons tag rest ih =>
    unfold Client.RemoveTags
    have hc := do_client E "DELETE" ("snitches/" ++ token ++ "/tags/" ++ tag) none w
    generalize Client.do_ E "DELETE" ("snitches/" ++ token ++ "/tags/" ++ tag) none w = r at hc
    rcases r with ⟨⟨body, _ | err⟩, w1⟩
    · simp only [] at hc ⊢
      rw [ih w1, hc]
    · exact hc

theorem CheckIn_client (E : Lib) (token : String) (w : World) :
    (Client.CheckIn E token w).2.client = w.client := by
  unfold Client.CheckIn
  simp only []
  cases E.Get w.trace ("https://nosnch.in/" ++ token) with
  | error err => rfl
  | ok resp =>
    simp only []
    cases resp.Body with
    | error err => rfl
    | ok body =>
      simp only []
      split <;> rfl

theorem Join_eq_intercalate (l : List String) (sep : String) :
    Join l sep = sep.intercalate l := by
  have go : ∀ (rest : List String) (acc : String),
      String.intercalate.go acc sep rest
        = acc ++ String.join (rest.map fun a => sep ++ a) := by
    intro rest
    induction rest with
    | nil => intro acc; simp [String.intercalate.go, String.join]
    | cons a rest ih =>
      intro acc
      simp only [String.intercalate.go, ih, List.map_cons, String.join, List.foldl_cons]
      rw [foldl_append_start ("" ++ (sep ++ a))]
      simp [String.join, String.append_assoc]
  induction l with
  | nil => rfl
  | cons a rest ih =>
    cases rest with
    | nil => simp [Join, String.intercalate, String.intercalate.go]
    | cons b rest2 =>
      simp only [Join, ih, String.intercalate, go, List.map_cons, String.join, List.foldl_cons]
      rw [foldl_append_start ("" ++ (sep ++ b))]
      simp [String.append_assoc]

theorem NewClient_apiBaseURL (k : String) :
    (NewClient k).apiBaseURL = "https://api.deadmanssnitch.com/v1" := rfl

theorem baseURL_slash (path : String) :
    "https://api.deadmanssnitch.com/v1" ++ "/" ++ path
      = "https://api.deadmanssnitch.com/v1/" ++ path := by
  have h : "https://api.deadmanssnitch.com/v1" ++ "/" = "https://api.deadmanssnitch.com/v1/" := by
    decide
  rw [h]

theorem String.length_zero_iff (s : String) : s.length = 0 ↔ s = "" := by
  constructor
  · intro h
    cases s with
    | mk d =>
      have hd : d = [] := List.length_eq_zero.mp h
      subst hd
      rfl
  · rintro rfl
    rfl

theorem filter_cons_append {α : Type} (p : α → Bool) (a : α) (l : List α) :
    (a :: l).filter p = (if p a then [a] else []) ++ l.filter p := by
  by_cases h : p a <;> simp [List.filter_cons, h]

/-! ## Claims on `CheckIn`, `do`, the request bodies and the operations table -/

/-- C6. For every token, `CheckIn` makes one `http.Get` call (no credentials, no
header) on `https://nosnch.in/` followed by the token; once the body has been
read it returns no error if and only if the status is 202, and for every other
status (200 and 204 too) the error text is
`Error checking in GET <url>, HTTP <status>. ` followed by the raw body. -/
theorem CheckIn_accepts_only_202 (E : Lib) (token : String) (w : World) :
    (Client.CheckIn E token w).2.trace
        = w.trace ++ [.get ("https://nosnch.in/" ++ token)
            (E.Get w.trace ("https://nosnch.in/" ++ token))]
      ∧ ∀ (status : Int) (body : String) (request : Request),
          E.Get w.trace ("https://nosnch.in/" ++ token) = .ok ⟨status, .ok body, request⟩ →
          ((Client.CheckIn E token w).1 = none ↔ status = 202)
            ∧ (status ≠ 202 →
                (Client.CheckIn E token w).1
                  = some (.errorf ("Error checking in GET " ++ ("https://nosnch.in/" ++ token)
                      ++ ", HTTP " ++ toString status ++ ". " ++ body))) := by
  constructor
  · unfold Client.CheckIn
    simp only []
    cases E.Get w.trace ("https://nosnch.in/" ++ token) with
    | error err => rfl
    | ok resp =>
      simp only []
      cases resp.Body with
      | error err => rfl
      | ok body =>
        simp only []
        split <;> rfl
  · intro status body request h
    unfold Client.CheckIn
    simp only [h, StatusAccepted]
    by_cases hs : status = 202
    · simp [hs]
    · simp [hs]

/-- C9. For every `k`, `NewClient k` is the client with base URL
`https://api.deadmanssnitch.com/v1` and key `k`. For such a client and every call
`do(method, path, body)`: if `http.NewRequest` refuses, nothing is sent; otherwise
exactly one request is sent, with the given method, the URL
`https://api.deadmanssnitch.com/v1/` followed by `path`, the header
`Content-Type: application/json`, Basic credentials `(k, "")` and the given body.
No operation changes the client. -/
theorem do_sends_authenticated_json_request (E : Lib) (k : String) (trace : List Event)
    (method path : String) (body : Option String) (w : World) :
    NewClient k = { apiBaseURL := "https://api.deadmanssnitch.com/v1", apiKey := k }
      ∧ (∀ err, E.NewRequestErr method ("https://api.deadmanssnitch.com/v1/" ++ path) = some err →
          Client.do_ E method path body ⟨NewClient k, trace⟩
              = ((none, some err), ⟨NewClient k, trace ++ [.call method path body]⟩)
            ∧ sentRequests (Client.do_ E method path body ⟨NewClient k, trace⟩).2.trace
              = sentRequests trace)
      ∧ (E.NewRequestErr method ("https://api.deadmanssnitch.com/v1/" ++ path) = none →
          sentRequests (Client.do_ E method path body ⟨NewClient k, trace⟩).2.trace
            = sentRequests trace ++
                [{ Method := method
                   URL := "https://api.deadmanssnitch.com/v1/" ++ path
                   Header := [("Content-Type", "application/json")]
                   BasicAuth := some (k, "")
                   Body := body }])
      ∧ ((Client.do_ E method path body w).2.client = w.client
          ∧ (∀ filters, (Client.ListSnitches E filters w).2.client = w.client)
          ∧ (∀ token, (Client.CheckIn E token w).2.client = w.client)
          ∧ (∀ token, (Client.GetSnitch E token w).2.client = w.client)
          ∧ (∀ snitch, (Client.CreateSnitch E snitch w).2.client = w.client)
          ∧ (∀ token snitch, (Client.UpdateSnitch E token snitch w).2.client = w.client)
          ∧ (∀ token newTags, (Client.AddTags E token newTags w).2.client = w.client)
          ∧ (∀ token rmTags, (Client.RemoveTags E token rmTags w).2.client = w.client)
          ∧ (∀ token, (Client.PauseSnitch E token w).2.client = w.client)
          ∧ (∀ token, (Client.DeleteSnitch E token w).2.client = w.client)) := by
  have hurl : (World.mk (NewClient k) trace).client.apiBaseURL ++ "/" ++ path
      = "https://api.deadmanssnitch.com/v1/" ++ path := by
    show (NewClient k).apiBaseURL ++ "/" ++ path = _
    rw [NewClient_apiBaseURL, baseURL_slash]
  refine ⟨rfl, ?_, ?_, ?_⟩
  · intro err h
    rw [← hurl] at h
    rw [do_refused E method path body _ err h]
    exact ⟨rfl, by simp [World.record, sentRequests_append, sentRequests]⟩
  · intro h
    rw [← hurl] at h
    rw [do_sent E method path body _ h]
    simp only [sentRequests_append, sentRequests, apiRequest, List.append_nil, hurl]
    rfl
  · refine ⟨do_client E method path body w, ?_, ?_, ?_, ?_, ?_, ?_, ?_, ?_, ?_⟩
    · intro filters; rw [ListSnitches_world, do_client]
    · intro token; exact CheckIn_client E token w
    · intro token; rw [GetSnitch_world, do_client]
    · intro snitch; rw [CreateSnitch_world, do_client]
    · intro token snitch; rw [UpdateSnitch_world, do_client]
    · intro token newTags; rw [AddTags_world, do_client]
    · intro token rmTags; exact RemoveTags_client E token rmTags w
    · intro token; rw [PauseSnitch_world, do_client]
    · intro token; rw [DeleteSnitch_world, do_client]

/-- C10. Every resource operation calls the transport layer (`do`) once, with the
method and relative path of the operations table, token and tags inserted as
given: ListSnitches GET `snitches?tags=` followed by the filters joined with `,`
(exactly `snitches?tags=` for no filter), GetSnitch GET `snitches/{token}`,
CreateSnitch POST `snitches`, UpdateSnitch PATCH `snitches/{token}`, AddTags POST
`snitches/{token}/tags`, PauseSnitch POST `snitches/{token}/pause`, DeleteSnitch
DELETE `snitches/{token}`; the path of a single-resource operation depends on the
token alone. -/
theorem operations_use_table_method_and_path (E : Lib) (w : World) :
    (∀ filters, calls (Client.ListSnitches E filters w).2.trace
        = calls w.trace ++ [("GET", "snitches?tags=" ++ ",".intercalate filters, none)])
      ∧ calls (Client.ListSnitches E [] w).2.trace
        = calls w.trace ++ [("GET", "snitches?tags=", none)]
      ∧ (∀ token, calls (Client.GetSnitch E token w).2.trace
        = calls w.trace ++ [("GET", "snitches/" ++ token, none)])
      ∧ (∀ snitch, calls (Client.CreateSnitch E snitch w).2.trace
        = calls w.trace ++ [("POST", "snitches", some (encodeObject E snitch.fields))])
      ∧ (∀ token snitch, calls (Client.UpdateSnitch E token snitch w).2.trace
        = calls w.trace
            ++ [("PATCH", "snitches/" ++ token, some (encodeObject E snitch.fields))])
      ∧ (∀ token newTags, calls (Client.AddTags E token newTags w).2.trace
        = calls w.trace
            ++ [("POST", "snitches/" ++ token ++ "/tags", some (tagsBody E newTags))])
      ∧ (∀ token, calls (Client.PauseSnitch E token w).2.trace
        = calls w.trace ++ [("POST", "snitches/" ++ token ++ "/pause", none)])
      ∧ (∀ token, calls (Client.DeleteSnitch E token w).2.trace
        = calls w.trace ++ [("DELETE", "snitches/" ++ token, none)]) := by
  refine ⟨?_, ?_, ?_, ?_, ?_, ?_, ?_, ?_⟩
  · intro filters; rw [ListSnitches_world, do_calls, Join_eq_intercalate]
  · rw [ListSnitches_world, do_calls]; rfl
  · intro token; rw [GetSnitch_world, do_calls]
  · intro snitch; rw [CreateSnitch_world, do_calls]
  · intro token snitch; rw [UpdateSnitch_world, do_calls]
  · intro token newTags; rw [AddTags_world, do_calls]
  · intro token; rw [PauseSnitch_world, do_calls]
  · intro token; rw [DeleteSnitch_world, do_calls]

/-! ## Helper lemmas: the written members -/

theorem keep_string (key value : String) (rest : List Field) :
    keptFields (⟨key, true, .str value⟩ :: rest) = stringMember key value ++ keptFields rest := by
  unfold keptFields stringMember
  rw [filter_cons_append]
  by_cases h : value = ""
  · subst h; rfl
  · have hl : value.length ≠ 0 := fun e => h ((String.length_zero_iff value).mp e)
    simp [FieldValue.isEmpty, h, hl]

theorem keep_tags (key : String) (tags : List String) (rest : List Field) :
    keptFields (⟨key, true, .strs tags⟩ :: rest) = tagsMember key tags ++ keptFields rest := by
  unfold keptFields tagsMember
  rw [filter_cons_append]
  cases tags with
  | nil => rfl
  | cons a l => simp [FieldValue.isEmpty]

theorem keptFields_eq_populated (s : Snitch) : keptFields s.fields = s.populated := by
  simp only [Snitch.fields, keep_string, keep_tags, Snitch.populated, List.append_assoc]
  simp [keptFields]

theorem mem_stringMember (f : Field) (key value : String) :
    f ∈ stringMember key value ↔ value ≠ "" ∧ f = ⟨key, true, .str value⟩ := by
  unfold stringMember
  by_cases h : value = "" <;> simp [h]

theorem mem_tagsMember (f : Field) (key : String) (tags : List String) :
    f ∈ tagsMember key tags ↔ 1 ≤ tags.length ∧ f = ⟨key, true, .strs tags⟩ := by
  unfold tagsMember
  by_cases h : 1 ≤ tags.length <;> simp [h]

theorem encode_stringMember (E : Lib) (key value : String) :
    (stringMember key value).map (Field.encode E)
      = if value ≠ "" then ["\"" ++ key ++ "\":" ++ E.quote value] else [] := by
  unfold stringMember
  by_cases h : value = "" <;> simp [h, Field.encode, FieldValue.encode]

theorem encode_tagsMember (E : Lib) (key : String) (tags : List String) :
    (tagsMember key tags).map (Field.encode E)
      = if 1 ≤ tags.length
        then ["\"" ++ key ++ "\":" ++ ("[" ++ ",".intercalate (tags.map E.quote) ++ "]")]
        else [] := by
  unfold tagsMember
  by_cases h : 1 ≤ tags.length <;>
    simp [h, Field.encode, FieldValue.encode, encodeStrings, Join_eq_intercalate]

theorem encodeObject_text (E : Lib) (s : Snitch) :
    encodeObject E s.fields
      = "\x7b" ++ ",".intercalate
          ((if s.Token ≠ "" then ["\"token\":" ++ E.quote s.Token] else [])
            ++ (if s.Href ≠ "" then ["\"href\":" ++ E.quote s.Href] else [])
            ++ (if s.Name ≠ "" then ["\"name\":" ++ E.quote s.Name] else [])
            ++ (if 1 ≤ s.Tags.length
                then ["\"tags\":" ++ ("[" ++ ",".intercalate (s.Tags.map E.quote) ++ "]")]
                else [])
            ++ (if s.Status ≠ "" then ["\"status\":" ++ E.quote s.Status] else [])
            ++ (if s.Notes ≠ "" then ["\"notes\":" ++ E.quote s.Notes] else [])
            ++ (if s.CheckedInAt ≠ "" then ["\"checked_in_at\":" ++ E.quote s.CheckedInAt]
                else [])
            ++ (if s.CheckInURL ≠ "" then ["\"check_in_url\":" ++ E.quote s.CheckInURL]
                else [])
            ++ (if s.Interval ≠ "" then ["\"interval\":" ++ E.quote s.Interval] else [])
            ++ (if s.AlertType ≠ "" then ["\"alert_type\":" ++ E.quote s.AlertType] else [])
            ++ (if s.CreatedAt ≠ "" then ["\"created_at\":" ++ E.quote s.CreatedAt] else []))
        ++ "\x7d" := by
  rw [encodeObject, keptFields_eq_populated, Join_eq_intercalate]
  simp only [Snitch.populated, List.map_append, encode_stringMember, encode_tagsMember]
  rfl

/-! ## Helper lemmas: tag removal -/

theorem RemoveTags_of_failure (E : Lib) (token : String) (pre : List String) (tk : String)
    (post : List String) (err : GoError) (w : World)
    (hpre : NoneFails E token pre w)
    (hk : (removeOne E token tk (worldAfter E token pre w)).1.2 = some err) :
    Client.RemoveTags E token (pre ++ tk :: post) w
      = (some err, worldAfter E token (pre ++ [tk]) w) := by
  induction pre generalizing w with
  | nil =>
    simp only [List.nil_append, worldAfter, removeOne] at hk ⊢
    unfold Client.RemoveTags
    generalize Client.do_ E "DELETE" ("snitches/" ++ token ++ "/tags/" ++ tk) none w = r at hk
    rcases r with ⟨⟨body, e⟩, w1⟩
    simp only [] at hk
    subst hk
    rfl
  | cons t rest ih =>
    obtain ⟨h1, h2⟩ := hpre
    simp only [worldAfter] at hk
    have := ih (removeOne E token t w).2 h2 hk
    simp only [List.cons_append, worldAfter]
    unfold Client.RemoveTags
    simp only [removeOne] at h1 this ⊢
    generalize Client.do_ E "DELETE" ("snitches/" ++ token ++ "/tags/" ++ t) none w = r
      at h1 this
    rcases r with ⟨⟨body, e⟩, w1⟩
    simp only [] at h1 this
    subst h1
    exact this

theorem RemoveTags_of_success (E : Lib) (token : String) (tags : List String) (w : World)
    (h : NoneFails E token tags w) :
    Client.RemoveTags E token tags w = (none, worldAfter E token tags w) := by
  induction tags generalizing w with
  | nil => rfl
  | cons t rest ih =>
    obtain ⟨h1, h2⟩ := h
    have := ih (removeOne E token t w).2 h2
    simp only [worldAfter]
    unfold Client.RemoveTags
    simp only [removeOne] at h1 this ⊢
    generalize Client.do_ E "DELETE" ("snitches/" ++ token ++ "/tags/" ++ t) none w = r
      at h1 this
    rcases r with ⟨⟨body, e⟩, w1⟩
    simp only [] at h1 this
    subst h1
    exact this

theorem worldAfter_calls (E : Lib) (token : String) (tags : List String) (w : World) :
    calls (worldAfter E token tags w).trace
      = calls w.trace
          ++ tags.map fun tag => ("DELETE", "snitches/" ++ token ++ "/tags/" ++ tag, none) := by
  induction tags generalizing w with
  | nil => simp [worldAfter]
  | cons t rest ih =>
    simp only [worldAfter, ih, removeOne, do_calls, List.map_cons, List.append_assoc,
      List.singleton_append]

theorem worldAfter_client (E : Lib) (token : String) (tags : List String) (w : World) :
    (worldAfter E token tags w).client = w.client := by
  induction tags generalizing w with
  | nil => rfl
  | cons t rest ih => simp only [worldAfter, ih, removeOne, do_client]

theorem do_sentRequests (E : Lib) (method path : String) (body : Option String) (w : World) :
    sentRequests (Client.do_ E method path body w).2.trace
      = sentRequests w.trace
          ++ (if (E.NewRequestErr method (w.client.apiBaseURL ++ "/" ++ path)).isNone
              then [apiRequest w.client method path body] else []) := by
  cases h : E.NewRequestErr method (w.client.apiBaseURL ++ "/" ++ path) with
  | none =>
    rw [do_sent E method path body w h]
    simp [sentRequests_append, sentRequests]
  | some err =>
    rw [do_refused E method path body w err h]
    simp [World.record, sentRequests_append, sentRequests]

theorem worldAfter_sentRequests (E : Lib) (token : String) (tags : List String) (w : World) :
    sentRequests (worldAfter E token tags w).trace
      = sentRequests w.trace
          ++ (tags.filter fun tag => (E.NewRequestErr "DELETE"
                (w.client.apiBaseURL ++ "/" ++ ("snitches/" ++ token ++ "/tags/" ++ tag))).isNone).map
              fun tag => apiRequest w.client "DELETE" ("snitches/" ++ token ++ "/tags/" ++ tag) none := by
  induction tags generalizing w with
  | nil => simp [worldAfter]
  | cons t rest ih =>
    simp only [worldAfter, ih, removeOne, do_sentRequests, do_client, List.append_assoc]
    congr 1
    rw [filter_cons_append]
    cases h : E.NewRequestErr "DELETE"
      (w.client.apiBaseURL ++ "/" ++ ("snitches/" ++ token ++ "/tags/" ++ t)) <;> simp

/-! ## Claims on the request bodies and on tag removal -/

/-- C8. For every Snitch, the JSON body that CreateSnitch and UpdateSnitch hand to
the transport layer, and that the request sent carries, is the text: an opening
brace, then, comma separated and in record order, `"key":value` for exactly the
fields that are non-empty (a non-empty string, a tag list of length at least 1),
then a closing brace. A string value is the library's JSON encoding of the string,
a tag list is the bracketed, comma separated encodings of its tags. So a key is in
the body exactly when its field is non-empty, no member has the value `""`, an
empty list or `null`, and a Snitch with no field populated gives `{}`. -/
theorem snitch_body_has_exactly_nonempty_fields (E : Lib) (snitch : Snitch) (w : World) :
    (∃ body : String,
      body = "\x7b" ++ ",".intercalate
          ((if snitch.Token ≠ "" then ["\"token\":" ++ E.quote snitch.Token] else [])
            ++ (if snitch.Href ≠ "" then ["\"href\":" ++ E.quote snitch.Href] else [])
            ++ (if snitch.Name ≠ "" then ["\"name\":" ++ E.quote snitch.Name] else [])
            ++ (if 1 ≤ snitch.Tags.length
                then ["\"tags\":"
                  ++ ("[" ++ ",".intercalate (snitch.Tags.map E.quote) ++ "]")]
                else [])
            ++ (if snitch.Status ≠ "" then ["\"status\":" ++ E.quote snitch.Status] else [])
            ++ (if snitch.Notes ≠ "" then ["\"notes\":" ++ E.quote snitch.Notes] else [])
            ++ (if snitch.CheckedInAt ≠ ""
                then ["\"checked_in_at\":" ++ E.quote snitch.CheckedInAt] else [])
            ++ (if snitch.CheckInURL ≠ ""
                then ["\"check_in_url\":" ++ E.quote snitch.CheckInURL] else [])
            ++ (if snitch.Interval ≠ "" then ["\"interval\":" ++ E.quote snitch.Interval]
                else [])
            ++ (if snitch.AlertType ≠ ""
                then ["\"alert_type\":" ++ E.quote snitch.AlertType] else [])
            ++ (if snitch.CreatedAt ≠ ""
                then ["\"created_at\":" ++ E.quote snitch.CreatedAt] else []))
        ++ "\x7d"
      ∧ calls (Client.CreateSnitch E snitch w).2.trace
        = calls w.trace ++ [("POST", "snitches", some body)]
      ∧ sentRequests (Client.CreateSnitch E snitch w).2.trace
        = sentRequests w.trace
            ++ (if (E.NewRequestErr "POST" (w.client.apiBaseURL ++ "/" ++ "snitches")).isNone
                then [{ Method := "POST"
                        URL := w.client.apiBaseURL ++ "/" ++ "snitches"
                        Header := [("Content-Type", "application/json")]
                        BasicAuth := some (w.client.apiKey, "")
                        Body := some body }]
                else [])
      ∧ (∀ token, calls (Client.UpdateSnitch E token snitch w).2.trace
        = calls w.trace ++ [("PATCH", "snitches/" ++ token, some body)])
      ∧ (∀ token, sentRequests (Client.UpdateSnitch E token snitch w).2.trace
        = sentRequests w.trace
            ++ (if (E.NewRequestErr "PATCH"
                  (w.client.apiBaseURL ++ "/" ++ ("snitches/" ++ token))).isNone
                then [{ Method := "PATCH"
                        URL := w.client.apiBaseURL ++ "/" ++ ("snitches/" ++ token)
                        Header := [("Content-Type", "application/json")]
                        BasicAuth := some (w.client.apiKey, "")
                        Body := some body }]
                else [])))
      ∧ (∀ key, key ∈ (keptFields snitch.fields).map Field.key ↔
          (key = "token" ∧ snitch.Token ≠ "") ∨ (key = "href" ∧ snitch.Href ≠ "")
            ∨ (key = "name" ∧ snitch.Name ≠ "") ∨ (key = "tags" ∧ 1 ≤ snitch.Tags.length)
            ∨ (key = "status" ∧ snitch.Status ≠ "") ∨ (key = "notes" ∧ snitch.Notes ≠ "")
            ∨ (key = "checked_in_at" ∧ snitch.CheckedInAt ≠ "")
            ∨ (key = "check_in_url" ∧ snitch.CheckInURL ≠ "")
            ∨ (key = "interval" ∧ snitch.Interval ≠ "")
            ∨ (key = "alert_type" ∧ snitch.AlertType ≠ "")
            ∨ (key = "created_at" ∧ snitch.CreatedAt ≠ ""))
      ∧ (∀ f ∈ keptFields snitch.fields, f.value.isEmpty = false)
      ∧ (∀ w0, calls (Client.CreateSnitch E ⟨"", "", "", [], "", "", "", "", "", "", ""⟩ w0).2.trace
          = calls w0.trace ++ [("POST", "snitches", some "\x7b\x7d")])
      ∧ (∀ w0 token,
          calls (Client.UpdateSnitch E token ⟨"", "", "", [], "", "", "", "", "", "", ""⟩ w0).2.trace
            = calls w0.trace ++ [("PATCH", "snitches/" ++ token, some "\x7b\x7d")]) := by
  refine ⟨⟨_, rfl, ?_, ?_, ?_, ?_⟩, ?_, ?_, ?_, ?_⟩
  · rw [CreateSnitch_world, do_calls, encodeObject_text]
  · rw [CreateSnitch_world, do_sentRequests, encodeObject_text]
    rfl
  · intro token
    rw [UpdateSnitch_world, do_calls, encodeObject_text]
  · intro token
    rw [UpdateSnitch_world, do_sentRequests, encodeObject_text]
    rfl
  · intro key
    rw [keptFields_eq_populated]
    simp only [Snitch.populated, List.mem_map, List.mem_append, mem_stringMember,
      mem_tagsMember]
    constructor
    · rintro ⟨f, hf, rfl⟩
      rcases hf with
        ((((((((((⟨h, rfl⟩ | ⟨h, rfl⟩) | ⟨h, rfl⟩) | ⟨h, rfl⟩) | ⟨h, rfl⟩) | ⟨h, rfl⟩)
          | ⟨h, rfl⟩) | ⟨h, rfl⟩) | ⟨h, rfl⟩) | ⟨h, rfl⟩) | ⟨h, rfl⟩) <;> simp [h]
    · rintro (⟨rfl, h⟩ | ⟨rfl, h⟩ | ⟨rfl, h⟩ | ⟨rfl, h⟩ | ⟨rfl, h⟩ | ⟨rfl, h⟩ | ⟨rfl, h⟩
        | ⟨rfl, h⟩ | ⟨rfl, h⟩ | ⟨rfl, h⟩ | ⟨rfl, h⟩)
      · exact ⟨⟨"token", true, .str snitch.Token⟩, by simp [h], rfl⟩
      · exact ⟨⟨"href", true, .str snitch.Href⟩, by simp [h], rfl⟩
      · exact ⟨⟨"name", true, .str snitch.Name⟩, by simp [h], rfl⟩
      · exact ⟨⟨"tags", true, .strs snitch.Tags⟩, by simp [h], rfl⟩
      · exact ⟨⟨"status", true, .str snitch.Status⟩, by simp [h], rfl⟩
      · exact ⟨⟨"notes", true, .str snitch.Notes⟩, by simp [h], rfl⟩
      · exact ⟨⟨"checked_in_at", true, .str snitch.CheckedInAt⟩, by simp [h], rfl⟩
      · exact ⟨⟨"check_in_url", true, .str snitch.CheckInURL⟩, by simp [h], rfl⟩
      · exact ⟨⟨"interval", true, .str snitch.Interval⟩, by simp [h], rfl⟩
      · exact ⟨⟨"alert_type", true, .str snitch.AlertType⟩, by simp [h], rfl⟩
      · exact ⟨⟨"created_at", true, .str snitch.CreatedAt⟩, by simp [h], rfl⟩
  · intro f hf
    have hp := (List.mem_filter.mp hf)
    have hall : ∀ g ∈ snitch.fields, g.omitempty = true := by
      intro g hg
      simp only [Snitch.fields, List.mem_cons, List.mem_singleton, List.not_mem_nil,
        or_false] at hg
      rcases hg with h | h | h | h | h | h | h | h | h | h | h <;> rw [h]
    have ho := hall f hp.1
    have h2 := hp.2
    simp only [ho, Bool.true_and, Bool.not_eq_true'] at h2
    exact h2
  · intro w0
    rw [CreateSnitch_world, do_calls]
    rfl
  · intro w0 token
    rw [UpdateSnitch_world, do_calls]
    rfl

/-- C7. `RemoveTags` makes its `DELETE snitches/{token}/tags/{tag}` requests one
at a time in list order. If the request for `tk` is the first to fail, with error
`err`, then `RemoveTags` returns `err` itself and ends in the world where exactly
the requests for `t1..tk` have been made, none for the later tags; if none fails
it returns no error, all `n` requests having been made; for no tag it makes no
request and succeeds. The requests made for a list of tags are, in order, one
`DELETE` on each tag's path, and the requests sent are those among them that
`http.NewRequest` accepted. -/
theorem RemoveTags_stops_at_first_failure (E : Lib) (token : String) (w : World) :
    (∀ (pre : List String) (tk : String) (post : List String) (err : GoError),
        NoneFails E token pre w →
        (removeOne E token tk (worldAfter E token pre w)).1.2 = some err →
        Client.RemoveTags E token (pre ++ tk :: post) w
          = (some err, worldAfter E token (pre ++ [tk]) w))
      ∧ (∀ tags, NoneFails E token tags w →
          Client.RemoveTags E token tags w = (none, worldAfter E token tags w))
      ∧ Client.RemoveTags E token [] w = (none, w)
      ∧ (∀ tags, calls (worldAfter E token tags w).trace
          = calls w.trace
              ++ tags.map fun tag => ("DELETE", "snitches/" ++ token ++ "/tags/" ++ tag, none))
      ∧ (∀ tags, sentRequests (worldAfter E token tags w).trace
          = sentRequests w.trace
              ++ (tags.filter fun tag => (E.NewRequestErr "DELETE"
                    (w.client.apiBaseURL ++ "/"
                      ++ ("snitches/" ++ token ++ "/tags/" ++ tag))).isNone).map
                  fun tag => apiRequest w.client "DELETE"
                    ("snitches/" ++ token ++ "/tags/" ++ tag) none) :=
  ⟨fun pre tk post err hpre hk => RemoveTags_of_failure E token pre tk post err w hpre hk,
    fun tags h => RemoveTags_of_success E token tags w h,
    rfl,
    fun tags => worldAfter_calls E token tags w,
    fun tags => worldAfter_sentRequests E token tags w⟩

/-! ## Helper lemmas: what the error text includes -/

theorem Includes.mem_data {text part : String} (h : Includes text part) (c : Char)
    (hc : c ∈ part.data) : c ∈ text.data := by
  obtain ⟨a, b, rfl⟩ := h
  simp [String.data_append, hc]

theorem includes_parts (a m b u c n d x : String) :
    Includes (a ++ m ++ b ++ u ++ c ++ n ++ d ++ x) m
      ∧ Includes (a ++ m ++ b ++ u ++ c ++ n ++ d ++ x) u
      ∧ Includes (a ++ m ++ b ++ u ++ c ++ n ++ d ++ x) n := by
  refine ⟨⟨a, b ++ u ++ c ++ n ++ d ++ x, ?_⟩, ⟨a ++ m ++ b, c ++ n ++ d ++ x, ?_⟩,
    ⟨a ++ m ++ b ++ u ++ c, d ++ x, ?_⟩⟩ <;> simp only [String.append_assoc]

theorem apiErrorText_includes (status : Int) (request : Request) (p : ErrorResponse) :
    Includes (apiErrorText status request p) request.Method
      ∧ Includes (apiErrorText status request p) request.URL
      ∧ Includes (apiErrorText status request p) (toString status) :=
  includes_parts _ _ _ _ _ _ _ _

theorem do_trace_grows (E : Lib) (method path : String) (body : Option String) (w : World) :
    ∃ evs, (Client.do_ E method path body w).2.trace = w.trace ++ evs := by
  cases h : E.NewRequestErr method (w.client.apiBaseURL ++ "/" ++ path) with
  | none => rw [do_sent E method path body w h]; exact ⟨_, rfl⟩
  | some err => rw [do_refused E method path body w err h]; exact ⟨_, rfl⟩

theorem do_names_request (E : Lib) (method path : String) (b : Option String) (w : World)
    (resp : Response) (body : String) (p : ErrorResponse)
    (hbody : resp.Body = .ok body) (h200 : resp.StatusCode ≠ 200) (h204 : resp.StatusCode ≠ 204)
    (hdec : E.UnmarshalErrorResponse body = .ok p)
    (hex : EndsWithExchange w (Client.do_ E method path b w).2 resp) :
    NamesRequest (Client.do_ E method path b w).1.2 resp := by
  obtain ⟨evs, request, htrace, hlast⟩ := hex
  cases h : E.NewRequestErr method (w.client.apiBaseURL ++ "/" ++ path) with
  | some err =>
    rw [do_refused E method path b w err h] at htrace
    have hevs := List.append_cancel_left htrace
    rw [← hevs] at hlast
    simp at hlast
  | none =>
    rw [do_sent E method path b w h] at htrace ⊢
    have hevs := List.append_cancel_left htrace
    rw [← hevs] at hlast
    simp only [List.getLast?_cons_cons, List.getLast?_singleton, Option.some.injEq,
      Event.send.injEq] at hlast
    rw [hlast.2]
    obtain ⟨status, rbody, rreq⟩ := resp
    simp only [] at hbody h200 h204
    subst hbody
    rw [checkResponse_of_failure E status body rreq h200 h204, hdec]
    have hi := apiErrorText_includes status rreq p
    exact ⟨_, rfl, hi.1, hi.2.1, hi.2.2⟩

theorem NamesRequest.ne_none {resp : Response} (h : NamesRequest none resp) : False := by
  obtain ⟨e, he, _⟩ := h
  cases he

theorem ListSnitches_names (E : Lib) (filters : List String) (w : World) (resp : Response)
    (h : NamesRequest
      (Client.do_ E "GET" ("snitches?tags=" ++ Join filters ",") none w).1.2 resp) :
    NamesRequest (Client.ListSnitches E filters w).1.2 resp := by
  simp only [Client.ListSnitches]
  generalize Client.do_ E "GET" ("snitches?tags=" ++ Join filters ",") none w = r at h
  rcases r with ⟨⟨body, _ | err⟩, w1⟩
  · exact (NamesRequest.ne_none h).elim
  · exact h

theorem GetSnitch_names (E : Lib) (token : String) (w : World) (resp : Response)
    (h : NamesRequest (Client.do_ E "GET" ("snitches/" ++ token) none w).1.2 resp) :
    NamesRequest (Client.GetSnitch E token w).1.2 resp := by
  unfold Client.GetSnitch
  generalize Client.do_ E "GET" ("snitches/" ++ token) none w = r at h
  rcases r with ⟨⟨body, _ | err⟩, w1⟩
  · exact (NamesRequest.ne_none h).elim
  · exact h

theorem CreateSnitch_names (E : Lib) (snitch : Snitch) (w : World) (resp : Response)
    (h : NamesRequest
      (Client.do_ E "POST" "snitches" (some (encodeObject E snitch.fields)) w).1.2 resp) :
    NamesRequest (Client.CreateSnitch E snitch w).1.2 resp := by
  unfold Client.CreateSnitch MarshalSnitch
  simp only []
  generalize Client.do_ E "POST" "snitches" (some (encodeObject E snitch.fields)) w = r at h
  rcases r with ⟨⟨body, _ | err⟩, w1⟩
  · exact (NamesRequest.ne_none h).elim
  · exact h

theorem UpdateSnitch_names (E : Lib) (token : String) (snitch : Snitch) (w : World)
    (resp : Response)
    (h : NamesRequest (Client.do_ E "PATCH" ("snitches/" ++ token)
      (some (encodeObject E snitch.fields)) w).1.2 resp) :
    NamesRequest (Client.UpdateSnitch E token snitch w).1.2 resp := by
  unfold Client.UpdateSnitch MarshalSnitch
  simp only []
  generalize Client.do_ E "PATCH" ("snitches/" ++ token)
    (some (encodeObject E snitch.fields)) w = r at h
  rcases r with ⟨⟨body, _ | err⟩, w1⟩
  · exact (NamesRequest.ne_none h).elim
  · exact h

theorem AddTags_names (E : Lib) (token : String) (newTags : Option (List String)) (w : World)
    (resp : Response)
    (h : NamesRequest (Client.do_ E "POST" ("snitches/" ++ token ++ "/tags")
      (some (tagsBody E newTags)) w).1.2 resp) :
    NamesRequest (Client.AddTags E token newTags w).1 resp := by
  unfold Client.AddTags
  rw [MarshalTags_eq]
  simp only []
  generalize Client.do_ E "POST" ("snitches/" ++ token ++ "/tags")
    (some (tagsBody E newTags)) w = r at h
  rcases r with ⟨⟨body, _ | err⟩, w1⟩
  · exact (NamesRequest.ne_none h).elim
  · exact h

theorem PauseSnitch_names (E : Lib) (token : String) (w : World) (resp : Response)
    (h : NamesRequest
      (Client.do_ E "POST" ("snitches/" ++ token ++ "/pause") none w).1.2 resp) :
    NamesRequest (Client.PauseSnitch E token w).1 resp := by
  unfold Client.PauseSnitch
  generalize Client.do_ E "POST" ("snitches/" ++ token ++ "/pause") none w = r at h
  rcases r with ⟨⟨body, _ | err⟩, w1⟩
  · exact (NamesRequest.ne_none h).elim
  · exact h

theorem DeleteSnitch_names (E : Lib) (token : String) (w : World) (resp : Response)
    (h : NamesRequest (Client.do_ E "DELETE" ("snitches/" ++ token) none w).1.2 resp) :
    NamesRequest (Client.DeleteSnitch E token w).1 resp := by
  unfold Client.DeleteSnitch
  generalize Client.do_ E "DELETE" ("snitches/" ++ token) none w = r at h
  rcases r with ⟨⟨body, _ | err⟩, w1⟩
  · exact (NamesRequest.ne_none h).elim
  · exact h

theorem RemoveTags_trace_grows (E : Lib) (token : String) (rmTags : List String) (w : World) :
    ∃ evs, (Client.RemoveTags E token rmTags w).2.trace = w.trace ++ evs := by
  induction rmTags generalizing w with
  | nil => exact ⟨[], by simp [Client.RemoveTags]⟩
  | cons tag rest ih =>
    unfold Client.RemoveTags
    obtain ⟨evs1, h1⟩ :=
      do_trace_grows E "DELETE" ("snitches/" ++ token ++ "/tags/" ++ tag) none w
    generalize Client.do_ E "DELETE" ("snitches/" ++ token ++ "/tags/" ++ tag) none w = r at h1
    rcases r with ⟨⟨body, _ | err⟩, w1⟩
    · obtain ⟨evs2, h2⟩ := ih w1
      simp only [] at h1 ⊢
      exact ⟨evs1 ++ evs2, by rw [h2, h1, List.append_assoc]⟩
    · exact ⟨evs1, h1⟩

theorem RemoveTags_names (E : Lib) (token : String) (rmTags : List String) (w : World)
    (resp : Response) (body : String) (p : ErrorResponse)
    (hbody : resp.Body = .ok body) (h200 : resp.StatusCode ≠ 200) (h204 : resp.StatusCode ≠ 204)
    (hdec : E.UnmarshalErrorResponse body = .ok p)
    (hex : EndsWithExchange w (Client.RemoveTags E token rmTags w).2 resp) :
    NamesRequest (Client.RemoveTags E token rmTags w).1 resp := by
  induction rmTags generalizing w with
  | nil =>
    obtain ⟨evs, request, htrace, hlast⟩ := hex
    have hevs : evs = [] := by
      have h0 : w.trace ++ [] = w.trace ++ evs := by
        rw [List.append_nil]; exact htrace
      exact (List.append_cancel_left h0).symm
    rw [hevs] at hlast
    simp at hlast
  | cons tag rest ih =>
    unfold Client.RemoveTags at hex ⊢
    have hdo := do_names_request E "DELETE" ("snitches/" ++ token ++ "/tags/" ++ tag) none w
      resp body p hbody h200 h204 hdec
    obtain ⟨evs1, h1⟩ :=
      do_trace_grows E "DELETE" ("snitches/" ++ token ++ "/tags/" ++ tag) none w
    generalize Client.do_ E "DELETE" ("snitches/" ++ token ++ "/tags/" ++ tag) none w = r
      at hex hdo h1
    rcases r with ⟨⟨rb, _ | err⟩, w1⟩
    · simp only [] at hex hdo h1 ⊢
      obtain ⟨evs2, h2⟩ := RemoveTags_trace_grows E token rest w1
      obtain ⟨evs, request, htrace, hlast⟩ := hex
      have hevs : evs = evs1 ++ evs2 := by
        rw [h2, h1, List.append_assoc] at htrace
        exact (List.append_cancel_left htrace).symm
      by_cases hnil : evs2 = []
      · rw [hevs, hnil, List.append_nil] at hlast
        exact (NamesRequest.ne_none (hdo ⟨evs1, request, h1, hlast⟩)).elim
      · rw [hevs, List.getLast?_append_of_ne_nil _ hnil] at hlast
        exact ih w1 ⟨evs2, request, h2, hlast⟩
    · exact hdo hex

/-! ## Claim on the error of a failed API call -/

/-- C4, as the code has it. For each of ListSnitches, GetSnitch, CreateSnitch,
UpdateSnitch, AddTags, RemoveTags, PauseSnitch and DeleteSnitch: when the
operation ends on an exchange answered with a status other than 200 and 204 and a
readable body that decodes as an error payload, it returns a non-nil error whose
text includes the method and the URL of the response's request and the status
code. -/
theorem failed_call_error_names_request (E : Lib) (w : World) (resp : Response)
    (body : String) (p : ErrorResponse)
    (hbody : resp.Body = .ok body) (h200 : resp.StatusCode ≠ 200) (h204 : resp.StatusCode ≠ 204)
    (hdec : E.UnmarshalErrorResponse body = .ok p) :
    (∀ filters, EndsWithExchange w (Client.ListSnitches E filters w).2 resp →
        NamesRequest (Client.ListSnitches E filters w).1.2 resp)
      ∧ (∀ token, EndsWithExchange w (Client.GetSnitch E token w).2 resp →
        NamesRequest (Client.GetSnitch E token w).1.2 resp)
      ∧ (∀ snitch, EndsWithExchange w (Client.CreateSnitch E snitch w).2 resp →
        NamesRequest (Client.CreateSnitch E snitch w).1.2 resp)
      ∧ (∀ token snitch, EndsWithExchange w (Client.UpdateSnitch E token snitch w).2 resp →
        NamesRequest (Client.UpdateSnitch E token snitch w).1.2 resp)
      ∧ (∀ token newTags, EndsWithExchange w (Client.AddTags E token newTags w).2 resp →
        NamesRequest (Client.AddTags E token newTags w).1 resp)
      ∧ (∀ token rmTags, EndsWithExchange w (Client.RemoveTags E token rmTags w).2 resp →
        NamesRequest (Client.RemoveTags E token rmTags w).1 resp)
      ∧ (∀ token, EndsWithExchange w (Client.PauseSnitch E token w).2 resp →
        NamesRequest (Client.PauseSnitch E token w).1 resp)
      ∧ (∀ token, EndsWithExchange w (Client.DeleteSnitch E token w).2 resp →
        NamesRequest (Client.DeleteSnitch E token w).1 resp) := by
  refine ⟨?_, ?_, ?_, ?_, ?_, ?_, ?_, ?_⟩
  · intro filters hex
    rw [ListSnitches_world] at hex
    exact ListSnitches_names E filters w resp
      (do_names_request E _ _ _ w resp body p hbody h200 h204 hdec hex)
  · intro token hex
    rw [GetSnitch_world] at hex
    exact GetSnitch_names E token w resp
      (do_names_request E _ _ _ w resp body p hbody h200 h204 hdec hex)
  · intro snitch hex
    rw [CreateSnitch_world] at hex
    exact CreateSnitch_names E snitch w resp
      (do_names_request E _ _ _ w resp body p hbody h200 h204 hdec hex)
  · intro token snitch hex
    rw [UpdateSnitch_world] at hex
    exact UpdateSnitch_names E token snitch w resp
      (do_names_request E _ _ _ w resp body p hbody h200 h204 hdec hex)
  · intro token newTags hex
    rw [AddTags_world] at hex
    exact AddTags_names E token newTags w resp
      (do_names_request E _ _ _ w resp body p hbody h200 h204 hdec hex)
  · intro token rmTags hex
    exact RemoveTags_names E token rmTags w resp body p hbody h200 h204 hdec hex
  · intro token hex
    rw [PauseSnitch_world] at hex
    exact PauseSnitch_names E token w resp
      (do_names_request E _ _ _ w resp body p hbody h200 h204 hdec hex)
  · intro token hex
    rw [DeleteSnitch_world] at hex
    exact DeleteSnitch_names E token w resp
      (do_names_request E _ _ _ w resp body p hbody h200 h204 hdec hex)

/-! ## The claims on concrete inputs -/

/-- C4, as stated, fails: `GetSnitch` on a token the server answers with 404 and
an empty body ends on that exchange and returns the decoding error, whose text
`unexpected end of JSON input` includes neither the method `GET`, nor the URL, nor
the status code `404`. -/
theorem GetSnitch_404_empty_body_names_nothing :
    EndsWithExchange sampleWorld
        (Client.GetSnitch (sampleLib emptyNotFound) "nosuch" sampleWorld).2
        ⟨404, .ok "", apiRequest (NewClient "secret") "GET" "snitches/nosuch" none⟩
      ∧ (Client.GetSnitch (sampleLib emptyNotFound) "nosuch" sampleWorld).1.2
        = some (.lib "unexpected end of JSON input")
      ∧ ¬ Includes "unexpected end of JSON input" "GET"
      ∧ ¬ Includes "unexpected end of JSON input"
          "https://api.deadmanssnitch.com/v1/snitches/nosuch"
      ∧ ¬ Includes "unexpected end of JSON input" (toString (404 : Int)) := by
  refine ⟨⟨_, _, rfl, rfl⟩, rfl, ?_, ?_, ?_⟩
  · intro h
    exact absurd (h.mem_data 'G' (by decide)) (by decide)
  · intro h
    exact absurd (h.mem_data 'h' (by decide)) (by decide)
  · intro h
    exact absurd (h.mem_data '4' (by decide)) (by decide)

/-- C4 at a concrete input: `DeleteSnitch` on a token the server answers with 404
and a decodable error payload. -/
theorem failed_call_error_names_request_witness :
    EndsWithExchange sampleWorld
        (Client.DeleteSnitch (sampleLib jsonNotFound) "nosuch" sampleWorld).2
        ⟨404, .ok notFoundBody, apiRequest (NewClient "secret") "DELETE" "snitches/nosuch" none⟩
      ∧ NamesRequest (Client.DeleteSnitch (sampleLib jsonNotFound) "nosuch" sampleWorld).1
        ⟨404, .ok notFoundBody,
          apiRequest (NewClient "secret") "DELETE" "snitches/nosuch" none⟩ :=
  have hex : EndsWithExchange sampleWorld
      (Client.DeleteSnitch (sampleLib jsonNotFound) "nosuch" sampleWorld).2
      ⟨404, .ok notFoundBody, apiRequest (NewClient "secret") "DELETE" "snitches/nosuch" none⟩ :=
    ⟨_, _, rfl, rfl⟩
  ⟨hex, (failed_call_error_names_request (sampleLib jsonNotFound) sampleWorld
    ⟨404, .ok notFoundBody, apiRequest (NewClient "secret") "DELETE" "snitches/nosuch" none⟩
    notFoundBody ⟨"resource_not_found", "no such snitch", []⟩ rfl (by decide) (by decide)
    rfl).2.2.2.2.2.2.2 "nosuch" hex⟩

/-- C2 at a concrete input: a 422 answer with one validation. -/
theorem checkResponse_unprocessable_witness :
    (sampleLib jsonNotFound).UnmarshalErrorResponse invalidBody
        = .ok ⟨"validation", "invalid", [⟨"interval", "is not included in the list"⟩]⟩
      ∧ checkResponse (sampleLib jsonNotFound) (.ok ⟨422, .ok invalidBody,
          apiRequest (NewClient "secret") "PATCH" "snitches/abc" none⟩)
        = (none, some (.errorf ("Error requesting PATCH "
            ++ "https://api.deadmanssnitch.com/v1/snitches/abc, HTTP 422. "
            ++ "interval: is not included in the list, "))) :=
  ⟨rfl, (checkResponse_unprocessable (sampleLib jsonNotFound) invalidBody
    (apiRequest (NewClient "secret") "PATCH" "snitches/abc" none)
    "validation" "invalid" [⟨"interval", "is not included in the list"⟩] rfl).1⟩

/-- C3 at a concrete input: a 404 answer with a decodable payload. -/
theorem checkResponse_generic_witness :
    (404 : Int) ≠ 200 ∧ (404 : Int) ≠ 204 ∧ (404 : Int) ≠ 422
      ∧ (sampleLib jsonNotFound).UnmarshalErrorResponse notFoundBody
        = .ok ⟨"resource_not_found", "no such snitch", []⟩
      ∧ checkResponse (sampleLib jsonNotFound) (.ok ⟨404, .ok notFoundBody,
          apiRequest (NewClient "secret") "GET" "snitches/nosuch" none⟩)
        = (none, some (.errorf ("Error requesting GET "
            ++ "https://api.deadmanssnitch.com/v1/snitches/nosuch, HTTP 404. "
            ++ "resource_not_found: no such snitch"))) :=
  ⟨by decide, by decide, by decide, rfl,
    checkResponse_generic (sampleLib jsonNotFound) 404 notFoundBody
      (apiRequest (NewClient "secret") "GET" "snitches/nosuch" none)
      "resource_not_found" "no such snitch" [] (by decide) (by decide) (by decide) rfl⟩

/-- C5 at a concrete input: a 404 answer with an empty body. -/
theorem checkResponse_decode_failure_witness :
    (404 : Int) ≠ 200 ∧ (404 : Int) ≠ 204
      ∧ (sampleLib emptyNotFound).UnmarshalErrorResponse ""
        = .error (.lib "unexpected end of JSON input")
      ∧ checkResponse (sampleLib emptyNotFound) (.ok ⟨404, .ok "",
          apiRequest (NewClient "secret") "GET" "snitches/nosuch" none⟩)
        = (none, some (.lib "unexpected end of JSON input")) :=
  ⟨by decide, by decide, rfl,
    checkResponse_decode_failure (sampleLib emptyNotFound) 404 ""
      (apiRequest (NewClient "secret") "GET" "snitches/nosuch" none)
      (.lib "unexpected end of JSON input") (by decide) (by decide) rfl⟩

/-- C6 at a concrete input: a check-in answered with 200 and the body `ok` is an
error. -/
theorem CheckIn_accepts_only_202_witness :
    (Client.CheckIn (sampleLib alwaysOK) "abc" sampleWorld).1
      = some (.errorf "Error checking in GET https://nosnch.in/abc, HTTP 200. ok") :=
  ((CheckIn_accepts_only_202 (sampleLib alwaysOK) "abc" sampleWorld).2 200 "ok"
    ⟨"GET", "https://nosnch.in/abc", [], none, none⟩ rfl).2 (by decide)

/-- C7 at a concrete input: of the tags `a`, `b`, `c` the server does not know
`b`; the requests for `a` and `b` are made, none for `c`, and the error is that of
the request for `b`. -/
theorem RemoveTags_stops_at_first_failure_witness :
    Client.RemoveTags (sampleLib missingTagB) "abc" ["a", "b", "c"] sampleWorld
        = (some (.errorf ("Error requesting DELETE "
              ++ "https://api.deadmanssnitch.com/v1/snitches/abc/tags/b, HTTP 404. "
              ++ "resource_not_found: no such snitch")),
            worldAfter (sampleLib missingTagB) "abc" ["a", "b"] sampleWorld)
      ∧ calls (worldAfter (sampleLib missingTagB) "abc" ["a", "b"] sampleWorld).trace
        = [("DELETE", "snitches/abc/tags/a", none), ("DELETE", "snitches/abc/tags/b", none)] :=
  ⟨(RemoveTags_stops_at_first_failure (sampleLib missingTagB) "abc" sampleWorld).1
      ["a"] "b" ["c"] _ ⟨rfl, trivial⟩ rfl,
    rfl⟩

/-- C8 at a concrete input: the body CreateSnitch hands over for a Snitch with
name, tags, notes, interval and alert type set carries those five members and no
other, in record order. -/
theorem snitch_body_has_exactly_nonempty_fields_witness :
    calls (Client.CreateSnitch (sampleLib alwaysOK) sampleSnitch sampleWorld).2.trace
      = [("POST", "snitches",
          some ("\x7b\"name\":\"testSnitch\",\"tags\":[\"test\",\"nightly\"],"
            ++ "\"notes\":\"a test\",\"interval\":\"hourly\",\"alert_type\":\"basic\"\x7d"))] := by
  obtain ⟨⟨body, hbody, hcalls, _⟩, _⟩ :=
    snitch_body_has_exactly_nonempty_fields (sampleLib alwaysOK) sampleSnitch sampleWorld
  rw [hcalls, hbody]
  rfl

end Deadmanssnitch
